import Mathlib

/-!
Verification of the scan orchestration engine of the `miranda` repository.

The Convex backend is a transactional document store: every mutation runs
atomically and serializably, so each mutation is embedded as a pure Lean
function from the documents it reads to the documents it writes.  External
collaborators (the RSS fetcher, the JS `Date` parser / `toISOString`
formatter, the AI extraction and analysis agents, JSON parsing of the
analyzer output) are passed in as explicit function parameters, exactly at
the points where the source awaits them.

Sources embedded here (file names as in the repository snapshot):
  * `convex/services/queue.ts`    - work queue (`createQueue`, `popNextArticle`, ...)
  * `convex/services/scans.ts`    - scan controller (`queueScan`, `getRunningScan`,
                                    `updateScanStatus`, `incrementProcessedArticles`)
  * `convex/services/articles.ts` - article store (`bulkCreateArticles`, `retryArticle`, ...)
  * `convex/node/rssParser.ts`    - feed ingestion (`parseFeeds`, `extractArticles`,
                                    `getPublishedDate`)
  * `convex/node/articleProcessor.ts` - worker loop (`processNextArticle`)
  * `convex/node/aiAnalyzer.ts`   - analysis step (`analyzeArticle`, `parseScores`)
  * `convex/services/watchdog.ts` - watchdog (`checkStalledScans`)
-/

namespace Miranda

/-- Article lifecycle status (`ArticleStatus` in `convex/types.ts`). -/
inductive ArticleStatus where
  | pending
  | processing
  | completed
  | failed
  deriving DecidableEq, Repr

/-- Scan lifecycle status (`ScanStatus` in `convex/types.ts`).  The legacy
raw string `'completed'` used in some comparisons in the source denotes the
same value as the enum member, so it collapses to one constructor here. -/
inductive ScanStatus where
  | initializing
  | running
  | completed
  deriving DecidableEq, Repr

/-- Work-queue status (`ScanQueueStatus` in `convex/types.ts`). -/
inductive ScanQueueStatus where
  | awaiting
  | processing
  | completed
  deriving DecidableEq, Repr

/-- JavaScript `a || b` on an optional string: `undefined` and the empty
string are falsy, any other string is returned unchanged. -/
def jsOr (a : Option String) (b : String) : String :=
  match a with
  | some s => if s = "" then b else s
  | none => b

/-- The structured score object stored by `updateArticleAnalysis`
(`convex/services/articles.ts`). -/
structure Score where
  relevance : Int
  relevanceSummary : String
  uniqueness : Int
  uniquenessSummary : String
  engagement : Int
  engagementSummary : String
  credibility : Int
  credibilitySummary : String
  deriving DecidableEq, Repr

/-- One document of the `articles` table.  `id` stands for the opaque
Convex document id `_id`; optional fields are absent (`none`) until the
corresponding patch writes them, and a patch with `undefined` removes
them again (`none`). -/
structure ArticleDoc where
  id : Nat
  title : String
  url : String
  sourceId : Nat
  publishedAt : String
  guid : String
  status : ArticleStatus
  extractedContent : Option String
  summary : Option String
  score : Option Score
  recommendation : Option String
  videoAngle : Option String
  deriving DecidableEq, Repr

/-- The immutable `options` object stored on a scan by `queueScan`. -/
structure ScanOptions where
  rssCount : Int
  daysBack : Option Int
  parallelism : Option Int
  deriving DecidableEq, Repr

/-- One document of the `scans` table.  `creationTime` is the Convex
`_creationTime` timestamp in milliseconds. -/
structure ScanDoc where
  id : Nat
  creationTime : Int
  status : ScanStatus
  options : ScanOptions
  totalArticles : Option Nat
  processedArticles : Option Nat
  error : Option String
  completedAt : Option String
  deriving DecidableEq, Repr

/-- One document of the `scanQueue` table (`convex/services/queue.ts`):
a per-scan ordered list of pending article ids.  The scan id is the
lookup key (the table is 1:1 with scans via the `byScanId` index). -/
structure ScanQueue where
  scanId : Nat
  list : List Nat
  status : ScanQueueStatus
  deriving DecidableEq, Repr

/-- `createQueue` (`convex/services/queue.ts`): inserts the queue document
for a scan with the given ordered id list and status `PROCESSING`. -/
def createQueue (scanId : Nat) (articleIds : List Nat) : ScanQueue :=
  { scanId := scanId, list := articleIds, status := ScanQueueStatus.processing }

/-- `popNextArticle` (`convex/services/queue.ts`): reads the queue for the
scan (`none` when no queue document exists), and
  * if the queue is missing or its list is empty, patches an existing
    queue to `COMPLETED` and returns `null`;
  * otherwise removes the front id, patches the status to `COMPLETED`
    when nothing remains and `PROCESSING` otherwise, and returns the id.
The whole body is one Convex mutation, hence atomic; concurrent callers
observe some serial order of these state transformers. -/
def popNextArticle (queue : Option ScanQueue) : Option ScanQueue × Option Nat :=
  match queue with
  | none => (none, none)
  | some q =>
    match q.list with
    | [] => (some { q with status := ScanQueueStatus.completed }, none)
    | nextArticleId :: remainingList =>
      (some { q with
          list := remainingList,
          status := if remainingList.isEmpty then ScanQueueStatus.completed
                    else ScanQueueStatus.processing },
        some nextArticleId)

/-- Iterates `popNextArticle` `k` times from a queue state, returning the
final state and the list of returned values in call order. -/
def popCalls : Option ScanQueue → Nat → Option ScanQueue × List (Option Nat)
  | q, 0 => (q, [])
  | q, Nat.succ k =>
    let r := popNextArticle q
    let rest := popCalls r.1 k
    (rest.1, r.2 :: rest.2)

lemma popCalls_none (k : Nat) : popCalls none k = (none, List.replicate k none) := by
  induction k with
  | zero => rfl
  | succ k ih => simp [popCalls, popNextArticle, ih, List.replicate_succ]

lemma popCalls_some (k : Nat) :
    ∀ (sid : Nat) (ids : List Nat) (st : ScanQueueStatus),
      popCalls (some ⟨sid, ids, st⟩) k =
        (some ⟨sid, ids.drop k,
           if k = 0 then st
           else if k < ids.length then ScanQueueStatus.processing
           else ScanQueueStatus.completed⟩,
         (ids.map some).take k ++ List.replicate (k - ids.length) none) := by
  induction k with
  | zero => intro sid ids st; simp [popCalls]
  | succ k ih =>
    intro sid ids st
    cases ids with
    | nil =>
      simp [popCalls, popNextArticle, ih, List.replicate_succ]
    | cons x tail =>
      rcases Nat.eq_zero_or_pos k with hk | hk
      · subst hk
        cases tail <;> simp [popCalls, popNextArticle, List.isEmpty]
      · have hk' : k ≠ 0 := by omega
        simp [popCalls, popNextArticle, ih, hk', Nat.succ_lt_succ_iff,
          Nat.succ_sub_succ]

/-- `getRunningScan` (`convex/services/scans.ts`): collects every scan whose
status differs from `COMPLETED` (the source checks both the enum member and
the legacy raw string, which denote the same value) and returns the first
one, or `null` when none exists. -/
def getRunningScan (scans : List ScanDoc) : Option ScanDoc :=
  (scans.filter fun s => s.status ≠ ScanStatus.completed).head?

/-- Arguments of the public `queueScan` mutation. -/
structure StartScanArgs where
  rssCount : Int
  daysBack : Option Int
  parallelism : Option Int
  delay : Option Int
  deriving DecidableEq, Repr

/-- A task handed to the durable scheduler by `queueScan`: run
`internal.node.rssParser.parseFeeds` with these arguments after `delay`
milliseconds. -/
structure ScheduledParseFeeds where
  delay : Int
  scanId : Nat
  rssCount : Int
  daysBack : Option Int
  parallelism : Option Int
  deriving DecidableEq, Repr

/-- `queueScan` (`convex/services/scans.ts`): if `getRunningScan` finds a
non-completed scan the mutation throws `ConvexError('A scan is already
running')` (a throw aborts the transaction, so nothing is inserted and
nothing is scheduled); otherwise it inserts a scan record with status
`INITIALIZING` and the caller's options, schedules `parseFeeds` after
`args.delay ?? 0`, and returns the new scan id.  `nextId` is the fresh
document id the store hands to `insert`, `now` its `_creationTime`. -/
def queueScan (nextId : Nat) (now : Int) (scans : List ScanDoc)
    (args : StartScanArgs) :
    Except String (List ScanDoc × ScheduledParseFeeds × Nat) :=
  match getRunningScan scans with
  | some _ => Except.error "A scan is already running"
  | none =>
    let scan : ScanDoc :=
      { id := nextId, creationTime := now, status := ScanStatus.initializing,
        options := { rssCount := args.rssCount, daysBack := args.daysBack,
                     parallelism := args.parallelism },
        totalArticles := none, processedArticles := none,
        error := none, completedAt := none }
    Except.ok (scans ++ [scan],
      { delay := args.delay.getD 0, scanId := nextId, rssCount := args.rssCount,
        daysBack := args.daysBack, parallelism := args.parallelism },
      nextId)

lemma getRunningScan_eq_none_iff (scans : List ScanDoc) :
    getRunningScan scans = none ↔ ∀ s ∈ scans, s.status = ScanStatus.completed := by
  simp only [getRunningScan, List.head?_eq_none_iff, List.filter_eq_nil_iff,
    decide_not, ne_eq, Bool.not_eq_eq_eq_not, Bool.not_true, decide_eq_false_iff_not,
    not_not]

/-- `ctx.db.get` on the `articles` table: look a document up by id. -/
def getArticle (docs : List ArticleDoc) (articleId : Nat) : Option ArticleDoc :=
  docs.find? fun a => a.id = articleId

/-- `ctx.db.patch` on the `articles` table: apply a field update to the
document with the given id, leaving every other document untouched. -/
def patchArticle (docs : List ArticleDoc) (articleId : Nat)
    (f : ArticleDoc → ArticleDoc) : List ArticleDoc :=
  docs.map fun a => if a.id = articleId then f a else a

lemma getArticle_patchArticle_self (docs : List ArticleDoc) (articleId : Nat)
    (f : ArticleDoc → ArticleDoc) (hf : ∀ a, (f a).id = a.id) :
    getArticle (patchArticle docs articleId f) articleId =
      (getArticle docs articleId).map f := by
  induction docs with
  | nil => rfl
  | cons a rest ih =>
    by_cases ha : a.id = articleId
    · simp only [getArticle, patchArticle, List.map_cons, if_pos ha]
      rw [List.find?_cons_of_pos _ (by simp [hf, ha]),
        List.find?_cons_of_pos _ (by simp [ha])]
      rfl
    · simp only [getArticle, patchArticle, List.map_cons, if_neg ha]
      rw [List.find?_cons_of_neg _ (by simp [ha]),
        List.find?_cons_of_neg _ (by simp [ha])]
      exact ih

lemma getArticle_patchArticle_other (docs : List ArticleDoc) (articleId b : Nat)
    (f : ArticleDoc → ArticleDoc) (hf : ∀ a, (f a).id = a.id) (hb : b ≠ articleId) :
    getArticle (patchArticle docs articleId f) b = getArticle docs b := by
  induction docs with
  | nil => rfl
  | cons a rest ih =>
    have hfa : (if a.id = articleId then f a else a).id = a.id := by
      by_cases h : a.id = articleId <;> simp [h, hf]
    simp only [getArticle, patchArticle, List.map_cons]
    by_cases hab : a.id = b
    · have ha : ¬a.id = articleId := by rw [hab]; exact hb
      rw [if_neg ha]
      rw [List.find?_cons_of_pos _ (by simp [hab]),
        List.find?_cons_of_pos _ (by simp [hab])]
    · rw [List.find?_cons_of_neg _ (by simp [hfa, hab]),
        List.find?_cons_of_neg _ (by simp [hab])]
      exact ih

/-- The article store together with the fresh-id supply of `ctx.db.insert`. -/
structure ArticleStore where
  docs : List ArticleDoc
  nextId : Nat
  deriving DecidableEq, Repr

/-- One element of the `articles` argument of `bulkCreateArticles`, as
produced by feed ingestion. -/
structure NewArticle where
  title : String
  url : String
  sourceId : Nat
  publishedAt : String
  guid : String
  deriving DecidableEq, Repr

/-- The `byGuid` index lookup used by `bulkCreateArticles`. -/
def findByGuid (docs : List ArticleDoc) (guid : String) : Option ArticleDoc :=
  docs.find? fun a => a.guid = guid

/-- The document inserted for a genuinely new article (status `PENDING`,
no derived fields). -/
def freshArticleDoc (id : Nat) (a : NewArticle) : ArticleDoc :=
  { id := id, title := a.title, url := a.url, sourceId := a.sourceId,
    publishedAt := a.publishedAt, guid := a.guid,
    status := ArticleStatus.pending, extractedContent := none, summary := none,
    score := none, recommendation := none, videoAngle := none }

/-- `bulkCreateArticles` (`convex/services/articles.ts`): for each incoming
article in order, skip it when a document with the same guid already exists
(leaving the store untouched), otherwise insert a fresh `PENDING` document;
return only the ids of the newly inserted documents. -/
def bulkCreateArticles (store : ArticleStore) :
    List NewArticle → ArticleStore × List Nat
  | [] => (store, [])
  | a :: rest =>
    match findByGuid store.docs a.guid with
    | some _ => bulkCreateArticles store rest
    | none =>
      let store' : ArticleStore :=
        { docs := store.docs ++ [freshArticleDoc store.nextId a],
          nextId := store.nextId + 1 }
      let r := bulkCreateArticles store' rest
      (r.1, store.nextId :: r.2)

/-- `retryArticle` (`convex/services/articles.ts`): when the article exists
and its status is `FAILED`, reset it to `PENDING` and clear
`extractedContent`, `summary`, `score`, `recommendation` and `videoAngle`
(patching with `undefined` removes the field); otherwise report failure and
change nothing.  The returned flag is the `success` field of the result. -/
def retryArticle (docs : List ArticleDoc) (articleId : Nat) :
    List ArticleDoc × Bool :=
  match getArticle docs articleId with
  | none => (docs, false)
  | some a =>
    if a.status ≠ ArticleStatus.failed then (docs, false)
    else
      (patchArticle docs articleId fun a =>
        { a with status := ArticleStatus.pending, extractedContent := none,
                 summary := none, score := none, recommendation := none,
                 videoAngle := none },
       true)

/-- `incrementProcessedArticles` (`convex/services/scans.ts`): patch the
scan's `processedArticles` to `(scan.processedArticles ?? 0) + 1`.  (This
mutation exists in the source but is analyzed below for whether the worker
loop ever invokes it.) -/
def incrementProcessedArticles (scan : ScanDoc) : ScanDoc :=
  { scan with processedArticles := some (scan.processedArticles.getD 0 + 1) }

/-- A normalized feed item as produced by the RSS parsing collaborator.
`dcDate` and `publishedAtRaw` stand for the dynamic `'dc:date'` and
`published_at` fields probed by `getPublishedDate`; an absent or
non-string field is `none`. -/
structure FeedItem where
  title : Option String
  link : Option String
  guid : Option String
  isoDate : Option String
  pubDate : Option String
  published : Option String
  updated : Option String
  date : Option String
  dcDate : Option String
  publishedAtRaw : Option String
  deriving DecidableEq, Repr

/-- The date-field candidates of `getPublishedDate`
(`convex/node/rssParser.ts`), in probing order. -/
def dateCandidates (item : FeedItem) : List (Option String) :=
  [item.isoDate, item.pubDate, item.published, item.updated, item.date,
    item.dcDate, item.publishedAtRaw]

/-- The `candidate.trim() === \'\'` skip test of `getPublishedDate`: a
string trims to empty exactly when it contains only whitespace. -/
def trimsToEmpty (s : String) : Bool :=
  s.data.all Char.isWhitespace

/-- The candidate loop of `getPublishedDate`: skip candidates that are not
strings or whose trimmed value is empty; parse the rest with `new Date`
(the platform parser, passed in as `parseDate`, `none` for an invalid
date); return the first successfully parsed value, in milliseconds. -/
def firstParsedDate (parseDate : String → Option Int) :
    List (Option String) → Option Int
  | [] => none
  | none :: rest => firstParsedDate parseDate rest
  | some s :: rest =>
    if trimsToEmpty s then firstParsedDate parseDate rest
    else
      match parseDate s with
      | some t => some t
      | none => firstParsedDate parseDate rest

/-- `getPublishedDate` (`convex/node/rssParser.ts`). -/
def getPublishedDate (parseDate : String → Option Int) (item : FeedItem) :
    Option Int :=
  firstParsedDate parseDate (dateCandidates item)

/-- The fixed `publishedAt` sentinel for undated included items
(`DEFAULT_UNDATED_PUBLISHED_AT` in `convex/node/rssParser.ts`). -/
def defaultUndatedPublishedAt : String := "1970-01-01T00:00:00.000Z"

/-- The fallback inclusion limit for undated items
(`UNDATED_ITEM_FALLBACK_LIMIT` in `convex/node/rssParser.ts`). -/
def undatedItemFallbackLimit : Nat := 10

/-- The body of the `feedData.items.forEach` loop of `extractArticles`
(`convex/node/rssParser.ts`) for the item at (0-based) position `index`:
`some` of the pushed article when the item passes the recency filter,
`none` when the loop returns early.  `toIso` is the platform
`Date.prototype.toISOString`, `cutoff` is `Date.now() - daysBack * 24*60*60*1000`. -/
def extractOne (parseDate : String → Option Int) (toIso : Int → String)
    (feedSourceId : Nat) (cutoff : Int) (index : Nat) (item : FeedItem) :
    Option NewArticle :=
  let publishedDate := getPublishedDate parseDate item
  let includeUndatedByFallback :=
    publishedDate.isNone && decide (index < undatedItemFallbackLimit)
  let includeDatedItem :=
    match publishedDate with
    | some d => decide (cutoff ≤ d)
    | none => false
  if !includeDatedItem && !includeUndatedByFallback then none
  else
    some { title := jsOr item.title "No title",
           url := jsOr item.link "",
           publishedAt :=
             match publishedDate with
             | some d => toIso d
             | none => defaultUndatedPublishedAt,
           sourceId := feedSourceId,
           guid := jsOr item.guid (jsOr item.link "") }

/-- `extractArticles` (`convex/node/rssParser.ts`): the indexed `forEach`
loop pushing included items onto the result array, embedded as a fold that
appends each loop iteration's pushes. -/
def extractArticles (parseDate : String → Option Int) (toIso : Int → String)
    (feedSourceId : Nat) (now daysBack : Int) (items : List FeedItem) :
    List NewArticle :=
  let cutoff := now - daysBack * 24 * 60 * 60 * 1000
  items.enum.foldl
    (fun acc p => acc ++ (extractOne parseDate toIso feedSourceId cutoff p.1 p.2).toList)
    []

/-- The first populated date field of an item: the first candidate that is
a string with non-empty trimmed value, regardless of whether it parses.
This is spec vocabulary, used to state the claim to compare against
`getPublishedDate`. -/
def firstPopulatedField : List (Option String) → Option String
  | [] => none
  | none :: rest => firstPopulatedField rest
  | some s :: rest =>
    if trimsToEmpty s then firstPopulatedField rest else some s

/-- Modelled from the spec wording of the recency-filter claim: an item is
included iff either a publish date parses from the FIRST POPULATED date
field and that date is at least the cutoff, or no date parses at all and
the item is among the first `K = 10` items of the feed. -/
def specRecencyIncludes (parseDate : String → Option Int)
    (now daysBack : Int) (index : Nat) (item : FeedItem) : Bool :=
  let cutoff := now - daysBack * 24 * 60 * 60 * 1000
  let datedOk :=
    match firstPopulatedField (dateCandidates item) with
    | some s =>
      match parseDate s with
      | some d => decide (cutoff ≤ d)
      | none => false
    | none => false
  let noDateParses :=
    (dateCandidates item).all fun c =>
      match c with
      | some s => trimsToEmpty s || (parseDate s).isNone
      | none => true
  datedOk || (noDateParses && decide (index < undatedItemFallbackLimit))

/-- The tail of `parseFeeds` (`convex/node/rssParser.ts`, after the feed
fetch loop): save the discovered articles with `bulkCreateArticles`,
create the work queue from the returned (new) ids, flip the scan to
`RUNNING` with `totalArticles` = new count and `processedArticles` = 0 via
`updateScanProgress`, then either schedule
`Math.min(parallelism, articleIds.length)` staggered `processNextArticle`
workers (delays `i * 100` ms) or, when no new article exists, set the scan
status to `completed` via `updateScanStatus` (which also stamps
`completedAt`). -/
structure IngestResult where
  store : ArticleStore
  queue : ScanQueue
  scan : ScanDoc
  workerDelays : List Int
  deriving DecidableEq, Repr

def parseFeedsCore (scan : ScanDoc) (store : ArticleStore)
    (discovered : List NewArticle) (parallelism : Int) (nowIso : String) :
    IngestResult :=
  let r := bulkCreateArticles store discovered
  let articleIds := r.2
  let queue := createQueue scan.id articleIds
  let scan' : ScanDoc :=
    { scan with status := ScanStatus.running,
                totalArticles := some articleIds.length,
                processedArticles := some 0 }
  if 0 < articleIds.length then
    let processorsToStart := min parallelism (articleIds.length : Int)
    { store := r.1, queue := queue, scan := scan',
      workerDelays := (List.range processorsToStart.toNat).map fun i : Nat => (i : Int) * 100 }
  else
    { store := r.1, queue := queue,
      scan := { scan' with status := ScanStatus.completed, completedAt := some nowIso },
      workerDelays := [] }

/-- A durable scheduler task of the worker chain: a `processNextArticle`
invocation, or an `analyzeArticle` invocation for a specific article
(both carry the scan id, which is fixed throughout a pipeline run). -/
inductive Task where
  | processNext
  | analyze (articleId : Nat)
  deriving DecidableEq, Repr

/-- The structured object produced by `parseScores`
(`convex/node/aiAnalyzer.ts`).  `parseScores` validates only `summary` and
the four numeric scores; the remaining fields are taken from the parsed
JSON unchecked and may be absent (`none`), which the consumer defaults
away with `||`. -/
structure AnalyzerScores where
  summary : String
  relevance : Int
  relevanceSummary : Option String
  uniqueness : Int
  uniquenessSummary : Option String
  engagement : Int
  engagementSummary : Option String
  credibility : Int
  credibilitySummary : Option String
  recommendation : Option String
  videoAngle : Option String
  deriving DecidableEq, Repr

/-- The durable state one worker chain acts on: the scan record, its work
queue, the article store documents, and the scheduler's pending task list
(tasks are appended by `ctx.scheduler.runAfter` and consumed in order). -/
structure PipeState where
  scan : ScanDoc
  queue : Option ScanQueue
  articles : List ArticleDoc
  tasks : List Task
  deriving DecidableEq, Repr

/-- `processNextArticle` (`convex/node/articleProcessor.ts`):
  * atomically pop the queue; on `null`, set the scan status to
    `completed` (stamping `completedAt`) and end the chain;
  * when the popped id no longer resolves to an article, schedule the next
    invocation and skip;
  * otherwise mark the article `processing` and run extraction
    (`extractionOutcome` is the AI content-extraction collaborator:
    `Except.error` when `generateText` throws, otherwise the returned
    text).  On success save the text truncated to 10000 characters (the
    `updateArticleContent` mutation also re-asserts status `processing`)
    and schedule `analyzeArticle` for this article; on a throw mark the
    article `failed` and schedule the next invocation. -/
def processNextArticle (extractionOutcome : Nat → Except String String)
    (nowIso : String) (st : PipeState) : PipeState :=
  let popped := popNextArticle st.queue
  let st := { st with queue := popped.1 }
  match popped.2 with
  | none =>
    { st with scan := { st.scan with
                        status := ScanStatus.completed
                        completedAt := some nowIso } }
  | some articleId =>
    match getArticle st.articles articleId with
    | none => { st with tasks := st.tasks ++ [Task.processNext] }
    | some _ =>
      let marked :=
        patchArticle st.articles articleId fun a =>
          { a with status := ArticleStatus.processing }
      let st := { st with articles := marked }
      match extractionOutcome articleId with
      | Except.ok text =>
        let saved :=
          patchArticle st.articles articleId fun a =>
            { a with
              extractedContent := some (text.take 10000)
              status := ArticleStatus.processing }
        { st with articles := saved, tasks := st.tasks ++ [Task.analyze articleId] }
      | Except.error _ =>
        let failedDocs :=
          patchArticle st.articles articleId fun a =>
            { a with status := ArticleStatus.failed }
        { st with articles := failedDocs, tasks := st.tasks ++ [Task.processNext] }

/-- `analyzeArticle` (`convex/node/aiAnalyzer.ts`):
  * when the article no longer exists, schedule the next worker and skip;
  * otherwise run the analyzer.  `analysisOutcome` is the scoring
    collaborator composed with `parseScores`: `Except.error` when
    `generateText` throws, `Except.ok none` when the response text does
    not parse into the expected shape, `Except.ok (some scores)`
    otherwise.  On parsed scores save the full analysis with status
    `completed` (defaulting absent optional fields with `||`); on an
    unparsable response mark the article `completed` without touching any
    other field; on a throw mark it `failed`.  In every case schedule the
    next `processNextArticle` invocation. -/
def analyzeArticle (analysisOutcome : Nat → Except String (Option AnalyzerScores))
    (articleId : Nat) (st : PipeState) : PipeState :=
  match getArticle st.articles articleId with
  | none => { st with tasks := st.tasks ++ [Task.processNext] }
  | some _ =>
    match analysisOutcome articleId with
    | Except.ok (some sc) =>
      { st with
        articles := patchArticle st.articles articleId fun a =>
          { a with
            summary := some sc.summary,
            score := some
              { relevance := sc.relevance,
                relevanceSummary := jsOr sc.relevanceSummary "",
                uniqueness := sc.uniqueness,
                uniquenessSummary := jsOr sc.uniquenessSummary "",
                engagement := sc.engagement,
                engagementSummary := jsOr sc.engagementSummary "",
                credibility := sc.credibility,
                credibilitySummary := jsOr sc.credibilitySummary "" },
            recommendation := some (jsOr sc.recommendation "maybe"),
            videoAngle := some (jsOr sc.videoAngle ""),
            status := ArticleStatus.completed },
        tasks := st.tasks ++ [Task.processNext] }
    | Except.ok none =>
      { st with
        articles := patchArticle st.articles articleId fun a =>
          { a with status := ArticleStatus.completed },
        tasks := st.tasks ++ [Task.processNext] }
    | Except.error _ =>
      { st with
        articles := patchArticle st.articles articleId fun a =>
          { a with status := ArticleStatus.failed },
        tasks := st.tasks ++ [Task.processNext] }

/-- Dispatch the front pending scheduler task (a no-op when none is
pending). -/
def runStep (extractionOutcome : Nat → Except String String)
    (analysisOutcome : Nat → Except String (Option AnalyzerScores))
    (nowIso : String) (st : PipeState) : PipeState :=
  match st.tasks with
  | [] => st
  | t :: rest =>
    let st' := { st with tasks := rest }
    match t with
    | Task.processNext => processNextArticle extractionOutcome nowIso st'
    | Task.analyze articleId => analyzeArticle analysisOutcome articleId st'

/-- Run `fuel` scheduler dispatches of one worker chain. -/
def runPipeline (extractionOutcome : Nat → Except String String)
    (analysisOutcome : Nat → Except String (Option AnalyzerScores))
    (nowIso : String) : Nat → PipeState → PipeState
  | 0, st => st
  | Nat.succ n, st =>
    runPipeline extractionOutcome analysisOutcome nowIso n
      (runStep extractionOutcome analysisOutcome nowIso st)

/-- The state the watchdog acts on: all scan documents, all queue
documents, and the scheduler tasks it emits (`processNextArticle`
invocations, recorded by scan id). -/
structure WatchdogState where
  scans : List ScanDoc
  queues : List ScanQueue
  tasks : List Nat
  deriving DecidableEq, Repr

/-- `getQueueByScanId` (`convex/services/queue.ts`): `byScanId` index
lookup. -/
def getQueueByScanId (queues : List ScanQueue) (scanId : Nat) :
    Option ScanQueue :=
  queues.find? fun q => q.scanId = scanId

/-- `ctx.db.patch` on the `scans` table. -/
def patchScan (scans : List ScanDoc) (scanId : Nat) (f : ScanDoc → ScanDoc) :
    List ScanDoc :=
  scans.map fun s => if s.id = scanId then f s else s

/-- `updateQueueStatus` applied through the queue found by scan id (the
watchdog patches `queue._id`; queues are 1:1 with scans via `byScanId`). -/
def setQueueStatus (queues : List ScanQueue) (scanId : Nat)
    (status : ScanQueueStatus) : List ScanQueue :=
  queues.map fun q => if q.scanId = scanId then { q with status := status } else q

/-- The body of the `for (const scan of runningScans)` loop of
`checkStalledScans` (`convex/services/watchdog.ts`) for one scan:
  * no queue document: when the scan is `INITIALIZING` and
    `(now - _creationTime) / 1000 / 60 > 5`, set its status to `COMPLETED`
    with error `'Scan timed out during initialization'` (via
    `updateScanStatus`, which stamps `completedAt`); otherwise do nothing;
  * a queue with items but status `COMPLETED`: flip the queue back to
    `PROCESSING` and schedule one `processNextArticle`;
  * additionally, a `RUNNING` scan older than 30 minutes whose queue still
    has items: schedule one `processNextArticle`. -/
def watchdogCheckScan (now : Int) (nowIso : String) (st : WatchdogState)
    (scan : ScanDoc) : WatchdogState :=
  let minutesElapsed : ℚ := ((now : ℚ) - (scan.creationTime : ℚ)) / 1000 / 60
  match getQueueByScanId st.queues scan.id with
  | none =>
    if scan.status = ScanStatus.initializing ∧ minutesElapsed > 5 then
      { st with scans := patchScan st.scans scan.id fun s =>
          { s with status := ScanStatus.completed,
                   error := some "Scan timed out during initialization",
                   completedAt := some nowIso } }
    else st
  | some queue =>
    let st :=
      if 0 < queue.list.length ∧ queue.status = ScanQueueStatus.completed then
        { st with queues := setQueueStatus st.queues scan.id ScanQueueStatus.processing,
                  tasks := st.tasks ++ [scan.id] }
      else st
    if scan.status = ScanStatus.running ∧ minutesElapsed > 30 ∧ 0 < queue.list.length then
      { st with tasks := st.tasks ++ [scan.id] }
    else st

/-- `checkStalledScans` (`convex/services/watchdog.ts`): fold the per-scan
check over every non-completed scan (`getRunningScans` filters on status
different from `COMPLETED`, checking the enum member and the identical
legacy raw string). -/
def checkStalledScans (now : Int) (nowIso : String) (st : WatchdogState) :
    WatchdogState :=
  (st.scans.filter fun s => s.status ≠ ScanStatus.completed).foldl
    (watchdogCheckScan now nowIso) st

/-- C1: for a queue created for a scan with an ordered id list, successive
`popNextArticle` calls return the ids one at a time from the front in FIFO
order — the first `N` calls return exactly the `N` ids in order (so each id
is delivered exactly once, no duplicates, no omissions), the call removing
the last id leaves the queue empty with status `completed`, every later
call returns `none` and idempotently leaves the status `completed`, and
calls against a scan with no queue document always return `none`. -/
theorem popNext_fifo_exactly_once (sid : Nat) (ids : List Nat) (k : Nat) :
    (popCalls (some (createQueue sid ids)) k).2
        = (ids.map some).take k ++ List.replicate (k - ids.length) none
    ∧ (ids.length ≤ k → 1 ≤ k →
        (popCalls (some (createQueue sid ids)) k).1
          = some { scanId := sid, list := [],
                   status := ScanQueueStatus.completed })
    ∧ popCalls none k = (none, List.replicate k none) := by
  refine ⟨?_, ?_, popCalls_none k⟩
  · rw [createQueue, popCalls_some]
  · intro hlen hk
    rw [createQueue, popCalls_some]
    have h0 : k ≠ 0 := by omega
    have h1 : ¬k < ids.length := by omega
    simp [h0, h1, List.drop_eq_nil_of_le hlen]

/-- Witness for C1 at a concrete queue of three ids drained by five calls. -/
theorem popNext_fifo_exactly_once_witness :
    (popCalls (some (createQueue 7 [3, 1, 2])) 5).2
        = [some 3, some 1, some 2, none, none]
    ∧ (popCalls (some (createQueue 7 [3, 1, 2])) 5).1
        = some { scanId := 7, list := [], status := ScanQueueStatus.completed } := by
  have h := popNext_fifo_exactly_once 7 [3, 1, 2] 5
  exact ⟨h.1.trans (by decide), h.2.1 (by decide) (by decide)⟩

/-- C2: when a non-completed scan exists, `queueScan` fails with the
already-running `ConvexError` (the aborted transaction inserts no scan and
schedules nothing); otherwise it appends exactly one scan record with
status `initializing` and schedules one `parseFeeds` ingestion task after
`delay ?? 0` milliseconds. -/
theorem startScan_single_flight (nextId : Nat) (now : Int)
    (scans : List ScanDoc) (args : StartScanArgs) :
    ((∃ s ∈ scans, s.status ≠ ScanStatus.completed) →
        queueScan nextId now scans args = Except.error "A scan is already running")
    ∧ ((∀ s ∈ scans, s.status = ScanStatus.completed) →
        queueScan nextId now scans args =
          Except.ok
            (scans ++
              [{ id := nextId, creationTime := now,
                 status := ScanStatus.initializing,
                 options := { rssCount := args.rssCount,
                              daysBack := args.daysBack,
                              parallelism := args.parallelism },
                 totalArticles := none, processedArticles := none,
                 error := none, completedAt := none }],
             { delay := args.delay.getD 0, scanId := nextId,
               rssCount := args.rssCount, daysBack := args.daysBack,
               parallelism := args.parallelism },
             nextId)) := by
  constructor
  · rintro ⟨s, hs, hstat⟩
    cases hg : getRunningScan scans with
    | none =>
      exact absurd ((getRunningScan_eq_none_iff scans).mp hg s hs) hstat
    | some r => simp [queueScan, hg]
  · intro hall
    have h : getRunningScan scans = none :=
      (getRunningScan_eq_none_iff scans).mpr hall
    simp [queueScan, h]

/-- Witness for C2: a live scan blocks a second start; an empty history
admits one. -/
theorem startScan_single_flight_witness :
    queueScan 1 50
        [{ id := 0, creationTime := 0, status := ScanStatus.running,
           options := { rssCount := 5, daysBack := none, parallelism := none },
           totalArticles := none, processedArticles := none,
           error := none, completedAt := none }]
        { rssCount := 5, daysBack := none, parallelism := none, delay := none }
      = Except.error "A scan is already running"
    ∧ queueScan 1 50 []
        { rssCount := 5, daysBack := some 7, parallelism := some 2, delay := some 250 }
      = Except.ok
          ([{ id := 1, creationTime := 50, status := ScanStatus.initializing,
              options := { rssCount := 5, daysBack := some 7, parallelism := some 2 },
              totalArticles := none, processedArticles := none,
              error := none, completedAt := none }],
           { delay := 250, scanId := 1, rssCount := 5,
             daysBack := some 7, parallelism := some 2 },
           1) := by
  constructor
  · exact (startScan_single_flight 1 50 _ _).1 (by decide)
  · exact ((startScan_single_flight 1 50 [] _).2 (by simp)).trans (by simp)

/-- C10: retrying a `failed` article reports success and resets exactly
that article to `pending` with `extractedContent`, `summary`, `score`,
`recommendation` and `videoAngle` all cleared (its identity fields are
untouched, as is every other article); retrying a missing or non-failed
article reports failure and mutates nothing. -/
theorem retryArticle_resets_cleanly (docs : List ArticleDoc) (articleId : Nat) :
    (∀ a, getArticle docs articleId = some a →
        a.status = ArticleStatus.failed →
        (retryArticle docs articleId).2 = true
        ∧ getArticle (retryArticle docs articleId).1 articleId =
            some { a with
                   status := ArticleStatus.pending
                   extractedContent := none
                   summary := none
                   score := none
                   recommendation := none
                   videoAngle := none }
        ∧ ∀ b, b ≠ articleId →
            getArticle (retryArticle docs articleId).1 b = getArticle docs b)
    ∧ (getArticle docs articleId = none →
        retryArticle docs articleId = (docs, false))
    ∧ (∀ a, getArticle docs articleId = some a →
        a.status ≠ ArticleStatus.failed →
        retryArticle docs articleId = (docs, false)) := by
  refine ⟨?_, ?_, ?_⟩
  · intro a ha hfailed
    have hid : ∀ x : ArticleDoc,
        (({ x with
            status := ArticleStatus.pending
            extractedContent := none
            summary := none
            score := none
            recommendation := none
            videoAngle := none } : ArticleDoc)).id = x.id := fun _ => rfl
    refine ⟨?_, ?_, ?_⟩
    · simp [retryArticle, ha, hfailed]
    · simp only [retryArticle, ha, hfailed, ne_eq, not_true_eq_false, if_false]
      rw [getArticle_patchArticle_self _ _ _ hid, ha]
      rfl
    · intro b hb
      simp only [retryArticle, ha, hfailed, ne_eq, not_true_eq_false, if_false]
      exact getArticle_patchArticle_other _ _ _ _ hid hb
  · intro h; simp [retryArticle, h]
  · intro a ha hne; simp [retryArticle, ha, hne]

/-- Witness for C10 at a two-article store whose second article failed. -/
theorem retryArticle_resets_cleanly_witness :
    (retryArticle
        [{ id := 4, title := "a", url := "u", sourceId := 0, publishedAt := "p",
           guid := "g1", status := ArticleStatus.completed,
           extractedContent := none, summary := none, score := none,
           recommendation := none, videoAngle := none },
         { id := 5, title := "b", url := "v", sourceId := 0, publishedAt := "q",
           guid := "g2", status := ArticleStatus.failed,
           extractedContent := some "text", summary := some "s", score := none,
           recommendation := some "maybe", videoAngle := some "angle" }] 5).2 = true
    ∧ getArticle
        (retryArticle
          [{ id := 4, title := "a", url := "u", sourceId := 0, publishedAt := "p",
             guid := "g1", status := ArticleStatus.completed,
             extractedContent := none, summary := none, score := none,
             recommendation := none, videoAngle := none },
           { id := 5, title := "b", url := "v", sourceId := 0, publishedAt := "q",
             guid := "g2", status := ArticleStatus.failed,
             extractedContent := some "text", summary := some "s", score := none,
             recommendation := some "maybe", videoAngle := some "angle" }] 5).1 5 =
      some { id := 5, title := "b", url := "v", sourceId := 0, publishedAt := "q",
             guid := "g2", status := ArticleStatus.pending,
             extractedContent := none, summary := none, score := none,
             recommendation := none, videoAngle := none } := by
  have h := (retryArticle_resets_cleanly
    [{ id := 4, title := "a", url := "u", sourceId := 0, publishedAt := "p",
       guid := "g1", status := ArticleStatus.completed,
       extractedContent := none, summary := none, score := none,
       recommendation := none, videoAngle := none },
     { id := 5, title := "b", url := "v", sourceId := 0, publishedAt := "q",
       guid := "g2", status := ArticleStatus.failed,
       extractedContent := some "text", summary := some "s", score := none,
       recommendation := some "maybe", videoAngle := some "angle" }] 5).1
    { id := 5, title := "b", url := "v", sourceId := 0, publishedAt := "q",
      guid := "g2", status := ArticleStatus.failed,
      extractedContent := some "text", summary := some "s", score := none,
      recommendation := some "maybe", videoAngle := some "angle" }
    (by decide) (by decide)
  exact ⟨h.1, h.2.1⟩

lemma findByGuid_isSome_iff (docs : List ArticleDoc) (g : String) :
    (findByGuid docs g).isSome ↔ ∃ d ∈ docs, d.guid = g := by
  simp [findByGuid]

lemma findByGuid_prefix_none {docs extra : List ArticleDoc} {g : String}
    (h : findByGuid (docs ++ extra) g = none) : findByGuid docs g = none := by
  rw [findByGuid, List.find?_eq_none] at h ⊢
  intro x hx
  exact h x (List.mem_append_left _ hx)

lemma bulkCreateArticles_structure (batch : List NewArticle) :
    ∀ store : ArticleStore,
      ∃ newDocs : List ArticleDoc,
        (bulkCreateArticles store batch).1.docs = store.docs ++ newDocs
        ∧ (bulkCreateArticles store batch).2 = newDocs.map (fun d => d.id)
        ∧ (∀ d ∈ newDocs, d.status = ArticleStatus.pending
             ∧ findByGuid store.docs d.guid = none
             ∧ d.guid ∈ batch.map (fun a => a.guid))
        ∧ (∀ a ∈ batch,
            (findByGuid (bulkCreateArticles store batch).1.docs a.guid).isSome) := by
  induction batch with
  | nil =>
    intro store
    exact ⟨[], by simp [bulkCreateArticles], by simp [bulkCreateArticles],
      by simp, by simp⟩
  | cons a rest ih =>
    intro store
    cases h : findByGuid store.docs a.guid with
    | some d0 =>
      obtain ⟨nd, h1, h2, h3, h4⟩ := ih store
      have hstep : bulkCreateArticles store (a :: rest) =
          bulkCreateArticles store rest := by
        simp [bulkCreateArticles, h]
      refine ⟨nd, by rw [hstep]; exact h1, by rw [hstep]; exact h2, ?_, ?_⟩
      · intro d hd
        obtain ⟨p1, p2, p3⟩ := h3 d hd
        exact ⟨p1, p2, by simpa using Or.inr (by simpa using p3)⟩
      · intro a' ha'
        rw [hstep]
        rcases List.mem_cons.mp ha' with rfl | hmem
        · rw [findByGuid_isSome_iff]
          have : d0 ∈ store.docs ∧ d0.guid = a'.guid := by
            have := List.find?_some h
            refine ⟨List.mem_of_find?_eq_some h, by simpa using this⟩
          rw [h1]
          exact ⟨d0, List.mem_append_left _ this.1, this.2⟩
        · exact h4 a' hmem
    | none =>
      obtain ⟨nd, h1, h2, h3, h4⟩ :=
        ih { docs := store.docs ++ [freshArticleDoc store.nextId a],
             nextId := store.nextId + 1 }
      have hstep : bulkCreateArticles store (a :: rest) =
          ((bulkCreateArticles
              { docs := store.docs ++ [freshArticleDoc store.nextId a],
                nextId := store.nextId + 1 } rest).1,
           store.nextId ::
             (bulkCreateArticles
               { docs := store.docs ++ [freshArticleDoc store.nextId a],
                 nextId := store.nextId + 1 } rest).2) := by
        simp [bulkCreateArticles, h]
      refine ⟨freshArticleDoc store.nextId a :: nd, ?_, ?_, ?_, ?_⟩
      · rw [hstep]
        simpa [List.append_assoc] using h1
      · rw [hstep]
        simpa [freshArticleDoc] using h2
      · intro d hd
        rcases List.mem_cons.mp hd with rfl | hmem
        · exact ⟨rfl, h, by simp [freshArticleDoc]⟩
        · obtain ⟨p1, p2, p3⟩ := h3 d hmem
          exact ⟨p1, findByGuid_prefix_none p2,
            by simpa using Or.inr (by simpa using p3)⟩
      · intro a' ha'
        rw [hstep]
        rcases List.mem_cons.mp ha' with rfl | hmem
        · rw [findByGuid_isSome_iff, h1]
          exact ⟨freshArticleDoc store.nextId a',
            List.mem_append_left _ (List.mem_append_right _ (by simp)), rfl⟩
        · exact h4 a' hmem

lemma bulkCreateArticles_noop (batch : List NewArticle) :
    ∀ store : ArticleStore,
      (∀ a ∈ batch, (findByGuid store.docs a.guid).isSome) →
      bulkCreateArticles store batch = (store, []) := by
  induction batch with
  | nil => intro store _; rfl
  | cons a rest ih =>
    intro store h
    obtain ⟨d, hd⟩ :=
      Option.isSome_iff_exists.mp (h a (List.mem_cons_self a rest))
    have hstep : bulkCreateArticles store (a :: rest) =
        bulkCreateArticles store rest := by
      simp [bulkCreateArticles, hd]
    rw [hstep]
    exact ih store fun a' ha' => h a' (List.mem_cons_of_mem _ ha')

/-- C4: `bulkCreateArticles` appends only documents whose guid was not
already present (inserting them as `pending`), leaves every pre-existing
document untouched, and returns exactly the ids of the appended documents
— which `parseFeeds` hands verbatim to `createQueue` as the queue
contents; running it a second time over the identical batch inserts
nothing and returns no ids. -/
theorem bulkCreate_dedup_idempotent (store : ArticleStore)
    (batch : List NewArticle) (scan : ScanDoc) (parallelism : Int)
    (nowIso : String) :
    (∃ newDocs : List ArticleDoc,
        (bulkCreateArticles store batch).1.docs = store.docs ++ newDocs
        ∧ (bulkCreateArticles store batch).2 = newDocs.map (fun d => d.id)
        ∧ ∀ d ∈ newDocs, d.status = ArticleStatus.pending
            ∧ findByGuid store.docs d.guid = none
            ∧ d.guid ∈ batch.map (fun a => a.guid))
    ∧ bulkCreateArticles (bulkCreateArticles store batch).1 batch =
        ((bulkCreateArticles store batch).1, [])
    ∧ (parseFeedsCore scan store batch parallelism nowIso).queue.list =
        (bulkCreateArticles store batch).2 := by
  obtain ⟨nd, h1, h2, h3, h4⟩ := bulkCreateArticles_structure batch store
  refine ⟨⟨nd, h1, h2, h3⟩, bulkCreateArticles_noop batch _ h4, ?_⟩
  by_cases hpos : 0 < (bulkCreateArticles store batch).2.length <;>
    simp [parseFeedsCore, createQueue, hpos]

/-- C6: when saving the discovered batch yields zero newly inserted
articles, feed ingestion schedules no worker invocation and the scan ends
with status `completed`; when the new-article count is positive it
schedules exactly `min(parallelism, articleCount)` staggered
`processNextArticle` workers and leaves the scan `running` with the
progress counters initialized. -/
theorem ingestion_workers_min_or_complete (scan : ScanDoc)
    (store : ArticleStore) (discovered : List NewArticle) (parallelism : Int)
    (nowIso : String) :
    ((bulkCreateArticles store discovered).2 = [] →
        (parseFeedsCore scan store discovered parallelism nowIso).workerDelays = []
        ∧ (parseFeedsCore scan store discovered parallelism nowIso).scan.status
            = ScanStatus.completed)
    ∧ ((bulkCreateArticles store discovered).2 ≠ [] → 0 ≤ parallelism →
        (parseFeedsCore scan store discovered parallelism nowIso).workerDelays.length
            = min parallelism.toNat (bulkCreateArticles store discovered).2.length
        ∧ (parseFeedsCore scan store discovered parallelism nowIso).scan.status
            = ScanStatus.running
        ∧ (parseFeedsCore scan store discovered parallelism nowIso).scan.totalArticles
            = some (bulkCreateArticles store discovered).2.length
        ∧ (parseFeedsCore scan store discovered parallelism nowIso).scan.processedArticles
            = some 0) := by
  constructor
  · intro h
    constructor <;> simp [parseFeedsCore, h]
  · intro h hp
    have hpos : 0 < (bulkCreateArticles store discovered).2.length :=
      List.length_pos.mpr h
    refine ⟨?_, ?_, ?_, ?_⟩ <;> simp [parseFeedsCore, hpos]
    omega

/-- Witness for C6: an empty batch completes the scan workerless; a batch
of two fresh articles with parallelism 3 schedules two workers. -/
theorem ingestion_workers_min_or_complete_witness :
    ((parseFeedsCore
        { id := 9, creationTime := 0, status := ScanStatus.initializing,
          options := { rssCount := 1, daysBack := none, parallelism := none },
          totalArticles := none, processedArticles := none,
          error := none, completedAt := none }
        { docs := [], nextId := 0 } [] 3 "t").workerDelays = []
      ∧ (parseFeedsCore
        { id := 9, creationTime := 0, status := ScanStatus.initializing,
          options := { rssCount := 1, daysBack := none, parallelism := none },
          totalArticles := none, processedArticles := none,
          error := none, completedAt := none }
        { docs := [], nextId := 0 } [] 3 "t").scan.status = ScanStatus.completed)
    ∧ (parseFeedsCore
        { id := 9, creationTime := 0, status := ScanStatus.initializing,
          options := { rssCount := 1, daysBack := none, parallelism := none },
          totalArticles := none, processedArticles := none,
          error := none, completedAt := none }
        { docs := [], nextId := 0 }
        [{ title := "x", url := "ux", sourceId := 2, publishedAt := "p", guid := "gx" },
         { title := "y", url := "uy", sourceId := 2, publishedAt := "p", guid := "gy" }]
        3 "t").workerDelays.length = 2 := by
  have h1 := (ingestion_workers_min_or_complete
    { id := 9, creationTime := 0, status := ScanStatus.initializing,
      options := { rssCount := 1, daysBack := none, parallelism := none },
      totalArticles := none, processedArticles := none,
      error := none, completedAt := none }
    { docs := [], nextId := 0 } [] 3 "t").1 (by decide)
  have h2 := ((ingestion_workers_min_or_complete
    { id := 9, creationTime := 0, status := ScanStatus.initializing,
      options := { rssCount := 1, daysBack := none, parallelism := none },
      totalArticles := none, processedArticles := none,
      error := none, completedAt := none }
    { docs := [], nextId := 0 }
    [{ title := "x", url := "ux", sourceId := 2, publishedAt := "p", guid := "gx" },
     { title := "y", url := "uy", sourceId := 2, publishedAt := "p", guid := "gy" }]
    3 "t").2 (by decide) (by decide)).1
  exact ⟨h1, h2.trans (by decide)⟩

lemma foldl_push_filterMap {α β : Type} (f : α → Option β) (l : List α) :
    ∀ acc : List β,
      l.foldl (fun acc x => acc ++ (f x).toList) acc = acc ++ l.filterMap f := by
  induction l with
  | nil => intro acc; simp
  | cons x rest ih =>
    intro acc
    cases hf : f x <;>
      simp [List.foldl_cons, hf, ih, List.filterMap_cons]

/-- C5 (amended): each feed item's inclusion depends only on its own
fields and 0-based feed position — `extractArticles` is the per-item
filter applied across the enumerated feed — and an item is included iff
either a publish date parses (taken from the first populated date field
that successfully parses; populated fields that fail to parse are
skipped) and that date is at least the cutoff of `daysBack` days before
now (a date exactly at the cutoff is included, one millisecond — hence
one day — older is excluded), or no date parses from any field and the
item is among the first `K = 10` items; an included undated item gets the
fixed epoch-start sentinel `publishedAt` rather than the current time. -/
theorem recency_filter_boundary (pd : String → Option Int)
    (toIso : Int → String) (sid : Nat) (now daysBack : Int) :
    (∀ items : List FeedItem,
        extractArticles pd toIso sid now daysBack items =
          items.enum.filterMap
            (fun p =>
              extractOne pd toIso sid (now - daysBack * 24 * 60 * 60 * 1000)
                p.1 p.2))
    ∧ (∀ (i : Nat) (it : FeedItem) (d : Int), getPublishedDate pd it = some d →
        ((extractOne pd toIso sid (now - daysBack * 24 * 60 * 60 * 1000) i it).isSome
          ↔ now - daysBack * 24 * 60 * 60 * 1000 ≤ d))
    ∧ (∀ (i : Nat) (it : FeedItem), getPublishedDate pd it = none →
        ((extractOne pd toIso sid (now - daysBack * 24 * 60 * 60 * 1000) i it).isSome
          ↔ i < undatedItemFallbackLimit))
    ∧ (∀ (i : Nat) (it : FeedItem) (a : NewArticle),
        getPublishedDate pd it = none →
        extractOne pd toIso sid (now - daysBack * 24 * 60 * 60 * 1000) i it = some a →
        a.publishedAt = defaultUndatedPublishedAt) := by
  refine ⟨?_, ?_, ?_, ?_⟩
  · intro items
    simpa [extractArticles] using
      foldl_push_filterMap
        (fun p : Nat × FeedItem =>
          extractOne pd toIso sid (now - daysBack * 24 * 60 * 60 * 1000) p.1 p.2)
        items.enum []
  · intro i it d h
    by_cases hc : now - daysBack * 24 * 60 * 60 * 1000 ≤ d <;>
      simp [extractOne, h, hc]
  · intro i it h
    by_cases hi : i < undatedItemFallbackLimit <;>
      simp [extractOne, h, hi]
  · intro i it a h ha
    by_cases hi : i < undatedItemFallbackLimit <;>
      simp [extractOne, h, hi] at ha
    rw [← ha]

/-- A platform date parser stub for concrete evaluation: only the string
`"2026-01-02"` parses (to 100 ms). -/
def probeParseDate : String → Option Int :=
  fun s => if s = "2026-01-02" then some 100 else none

/-- A feed item whose first populated date field (`isoDate`) does not
parse, while its second (`pubDate`) does. -/
def probeItem : FeedItem :=
  { title := some "t", link := some "l", guid := some "g",
    isoDate := some "bad-date", pubDate := some "2026-01-02",
    published := none, updated := none, date := none, dcDate := none,
    publishedAtRaw := none }

/-- A feed item with no date field at all. -/
def undatedProbeItem : FeedItem :=
  { title := some "t2", link := some "l2", guid := none,
    isoDate := none, pubDate := none, published := none, updated := none,
    date := none, dcDate := none, publishedAtRaw := none }

/-- C5 counterexample: at `now = 100`, `daysBack = 0`, the code includes
`probeItem` (its `pubDate` parses to the cutoff after the unparsable
`isoDate` is skipped), but the claim's condition — a publish date parses
from the FIRST POPULATED date field, or no date parses — excludes it, so
the claimed equivalence fails at this input. -/
theorem recency_first_populated_refuted :
    extractArticles probeParseDate (fun _ => "iso") 3 100 0 [probeItem] ≠ []
    ∧ specRecencyIncludes probeParseDate 100 0 0 probeItem = false := by
  exact ⟨by decide, by decide⟩

/-- Witness for the amended C5 theorem: an undated item at position 4 is
included (4 < 10) with the sentinel timestamp, and `probeItem`'s parsed
date, landing exactly on the cutoff, is included. -/
theorem recency_filter_boundary_witness :
    ((extractOne probeParseDate (fun _ => "iso") 3
        (100 - 0 * 24 * 60 * 60 * 1000) 4 undatedProbeItem).isSome = true)
    ∧ ((extractOne probeParseDate (fun _ => "iso") 3
        (100 - 0 * 24 * 60 * 60 * 1000) 0 probeItem).isSome = true) := by
  have h := recency_filter_boundary probeParseDate (fun _ => "iso") 3 100 0
  constructor
  · exact (h.2.2.1 4 undatedProbeItem (by decide)).mpr (by decide)
  · exact (h.2.1 0 probeItem 100 (by decide)).mpr (by decide)

lemma patched_status_id (s : ArticleStatus) :
    ∀ a : ArticleDoc, (({ a with status := s } : ArticleDoc)).id = a.id :=
  fun _ => rfl

/-- A parsed analyzer result used by the concrete pipeline runs. -/
def sampleScores : AnalyzerScores :=
  { summary := "s", relevance := 7, relevanceSummary := some "r",
    uniqueness := 8, uniquenessSummary := none, engagement := 6,
    engagementSummary := some "e", credibility := 9,
    credibilitySummary := none, recommendation := some "recommended",
    videoAngle := some "angle" }

/-- Extraction oracle for the two-article chain run: both extractions
succeed. -/
def chainExtract : Nat → Except String String := fun _ => Except.ok "text"

/-- Analysis oracle for the two-article chain run: article 1's analysis
throws, article 2's parses. -/
def chainAnalyze : Nat → Except String (Option AnalyzerScores) :=
  fun i => if i = 1 then Except.error "boom" else Except.ok (some sampleScores)

/-- Initial state of the two-article chain run: articles 1 and 2 pending,
queue `[1, 2]`, scan running, one worker invocation pending. -/
def chainInit : PipeState :=
  { scan := { id := 0
              creationTime := 0
              status := ScanStatus.running
              options := { rssCount := 1, daysBack := none, parallelism := none }
              totalArticles := some 2
              processedArticles := some 0
              error := none
              completedAt := none },
    queue := some (createQueue 0 [1, 2]),
    articles :=
      [freshArticleDoc 1
        { title := "a", url := "ua", sourceId := 0, publishedAt := "p", guid := "ga" },
       freshArticleDoc 2
        { title := "b", url := "ub", sourceId := 0, publishedAt := "p", guid := "gb" }],
    tasks := [Task.processNext] }

/-- The two-article chain run after six scheduler dispatches. -/
def chainFinal : PipeState := runPipeline chainExtract chainAnalyze "now" 6 chainInit

/-- C3: an unhandled throw of extraction (in `processNextArticle`) or of
analysis (in `analyzeArticle`) leaves the popped article with status
`failed` and still schedules the next worker invocation; consequently, in
a queue `[1, 2]` where article 1's analysis throws, article 1 ends
`failed` while article 2 still reaches `completed` and the scan
completes. -/
theorem failure_never_blocks_queue :
    (∀ (eo : Nat → Except String String) (nowIso : String) (st : PipeState)
        (q : ScanQueue) (aid : Nat) (rest : List Nat) (art : ArticleDoc)
        (msg : String),
        st.queue = some q → q.list = aid :: rest →
        getArticle st.articles aid = some art →
        eo aid = Except.error msg →
        (getArticle (processNextArticle eo nowIso st).articles aid).map
            (fun a => a.status) = some ArticleStatus.failed
        ∧ (processNextArticle eo nowIso st).tasks = st.tasks ++ [Task.processNext])
    ∧ (∀ (ao : Nat → Except String (Option AnalyzerScores)) (aid : Nat)
        (st : PipeState) (art : ArticleDoc) (msg : String),
        getArticle st.articles aid = some art →
        ao aid = Except.error msg →
        (getArticle (analyzeArticle ao aid st).articles aid).map
            (fun a => a.status) = some ArticleStatus.failed
        ∧ (analyzeArticle ao aid st).tasks = st.tasks ++ [Task.processNext])
    ∧ ((getArticle chainFinal.articles 1).map (fun a => a.status)
          = some ArticleStatus.failed
        ∧ (getArticle chainFinal.articles 2).map (fun a => a.status)
          = some ArticleStatus.completed
        ∧ chainFinal.scan.status = ScanStatus.completed) := by
  refine ⟨?_, ?_, by decide, by decide, by decide⟩
  · intro eo nowIso st q aid rest art msg hq hlist hart he
    have hpop : popNextArticle st.queue =
        (some { q with
            list := rest
            status := if rest.isEmpty then ScanQueueStatus.completed
                      else ScanQueueStatus.processing },
         some aid) := by
      rw [hq]
      simp [popNextArticle, hlist]
    simp only [processNextArticle, hpop]
    rw [hart, he]
    constructor
    · rw [getArticle_patchArticle_self _ _ _ (patched_status_id _),
        getArticle_patchArticle_self _ _ _ (patched_status_id _), hart]
      rfl
    · rfl
  · intro ao aid st art msg hart hao
    simp only [analyzeArticle]
    rw [hart, hao]
    constructor
    · rw [getArticle_patchArticle_self _ _ _ (patched_status_id _), hart]
      rfl
    · rfl

/-- Witness for C3: with the queue at `[1, 2]`, a throwing extraction for
article 1 marks it failed and still schedules the next invocation. -/
theorem failure_never_blocks_queue_witness :
    (getArticle (processNextArticle (fun _ => Except.error "boom") "now" chainInit).articles 1).map
        (fun a => a.status) = some ArticleStatus.failed
    ∧ (processNextArticle (fun _ => Except.error "boom") "now" chainInit).tasks
        = chainInit.tasks ++ [Task.processNext] :=
  failure_never_blocks_queue.1 (fun _ => Except.error "boom") "now" chainInit
    (createQueue 0 [1, 2]) 1 [2]
    (freshArticleDoc 1
      { title := "a", url := "ua", sourceId := 0, publishedAt := "p", guid := "ga" })
    "boom" rfl rfl (by decide) rfl

/-- C7: when the analyzer response cannot be parsed into the expected
structured shape (`parseScores` returns `null`), the article is still
marked `completed` — not `failed` — with `score`, `recommendation` and
`videoAngle` left exactly as they were (unset for an article the pipeline
created), and the next worker invocation is still scheduled. -/
theorem unparsable_analysis_completes_without_scores
    (ao : Nat → Except String (Option AnalyzerScores)) (aid : Nat)
    (st : PipeState) (art : ArticleDoc)
    (hart : getArticle st.articles aid = some art)
    (hao : ao aid = Except.ok none) :
    getArticle (analyzeArticle ao aid st).articles aid =
        some { art with status := ArticleStatus.completed }
    ∧ (art.score = none →
        (getArticle (analyzeArticle ao aid st).articles aid).map
          (fun a => a.score) = some none)
    ∧ (art.recommendation = none →
        (getArticle (analyzeArticle ao aid st).articles aid).map
          (fun a => a.recommendation) = some none)
    ∧ (art.videoAngle = none →
        (getArticle (analyzeArticle ao aid st).articles aid).map
          (fun a => a.videoAngle) = some none)
    ∧ (analyzeArticle ao aid st).tasks = st.tasks ++ [Task.processNext] := by
  have hmain : getArticle (analyzeArticle ao aid st).articles aid =
      some { art with status := ArticleStatus.completed } := by
    simp only [analyzeArticle]
    rw [hart, hao]
    rw [getArticle_patchArticle_self _ _ _ (patched_status_id _), hart]
    rfl
  refine ⟨hmain, ?_, ?_, ?_, ?_⟩
  · intro h; rw [hmain]; simpa using h
  · intro h; rw [hmain]; simpa using h
  · intro h; rw [hmain]; simpa using h
  · simp only [analyzeArticle]
    rw [hart, hao]

/-- Witness for C7: an unparsable analysis of pending article 2 leaves it
completed with all derived fields unset, scheduling the next worker. -/
theorem unparsable_analysis_completes_without_scores_witness :
    (getArticle (analyzeArticle (fun _ => Except.ok none) 2 chainInit).articles 2).map
        (fun a => a.score) = some none
    ∧ (getArticle (analyzeArticle (fun _ => Except.ok none) 2 chainInit).articles 2).map
        (fun a => a.status) = some ArticleStatus.completed
    ∧ (analyzeArticle (fun _ => Except.ok none) 2 chainInit).tasks
        = chainInit.tasks ++ [Task.processNext] := by
  have h := unparsable_analysis_completes_without_scores
    (fun _ => Except.ok none) 2 chainInit
    (freshArticleDoc 2
      { title := "b", url := "ub", sourceId := 0, publishedAt := "p", guid := "gb" })
    (by decide) rfl
  exact ⟨h.2.1 rfl, by rw [h.1]; rfl, h.2.2.2.2⟩

/-- The scan used by the one-article ingestion-to-completion run. -/
def c8Scan : ScanDoc :=
  { id := 5
    creationTime := 0
    status := ScanStatus.initializing
    options := { rssCount := 1, daysBack := none, parallelism := none }
    totalArticles := none
    processedArticles := none
    error := none
    completedAt := none }

/-- Ingestion of one fresh article with parallelism 2 into an empty
store. -/
def c8Ingest : IngestResult :=
  parseFeedsCore c8Scan { docs := [], nextId := 1 }
    [{ title := "t", url := "u", sourceId := 0, publishedAt := "p", guid := "g" }] 2 "iso"

/-- The pipeline state right after ingestion, with the first scheduled
worker invocation pending. -/
def c8Init : PipeState :=
  { scan := c8Ingest.scan, queue := some c8Ingest.queue,
    articles := c8Ingest.store.docs, tasks := [Task.processNext] }

/-- The one-article run after four scheduler dispatches: extraction and
analysis both succeed. -/
def c8Final : PipeState :=
  runPipeline (fun _ => Except.ok "content") (fun _ => Except.ok (some sampleScores))
    "now" 4 c8Init

/-- C8 evidence: neither `processNextArticle` nor `analyzeArticle` ever
changes the scan's `processedArticles` counter — in any state, under any
oracle outcome — even though the `incrementProcessedArticles` mutation
exists and would advance it by one; hence a scan whose single article is
driven to `completed` ends with `totalArticles = 1` but
`processedArticles` still 0. -/
theorem worker_never_increments_processed :
    (∀ (eo : Nat → Except String String) (nowIso : String) (st : PipeState),
        (processNextArticle eo nowIso st).scan.processedArticles
          = st.scan.processedArticles)
    ∧ (∀ (ao : Nat → Except String (Option AnalyzerScores)) (aid : Nat)
        (st : PipeState),
        (analyzeArticle ao aid st).scan.processedArticles
          = st.scan.processedArticles)
    ∧ (∀ scan : ScanDoc,
        (incrementProcessedArticles scan).processedArticles
          = some (scan.processedArticles.getD 0 + 1))
    ∧ ((getArticle c8Final.articles 1).map (fun a => a.status)
          = some ArticleStatus.completed
        ∧ c8Final.scan.status = ScanStatus.completed
        ∧ c8Final.scan.totalArticles = some 1
        ∧ c8Final.scan.processedArticles = some 0) := by
  refine ⟨?_, ?_, fun scan => rfl, by decide, by decide, by decide, by decide⟩
  · intro eo nowIso st
    simp only [processNextArticle]
    rcases hpop : popNextArticle st.queue with ⟨q', r⟩
    simp only [hpop]
    cases r with
    | none => rfl
    | some aid =>
      cases hart : getArticle st.articles aid with
      | none => simp [hart]
      | some a0 =>
        simp only [hart]
        cases he : eo aid with
        | ok t => simp [he]
        | error m => simp [he]
  · intro ao aid st
    simp only [analyzeArticle]
    cases hart : getArticle st.articles aid with
    | none => simp [hart]
    | some a0 =>
      simp only [hart]
      cases hao : ao aid with
      | error m => simp [hao]
      | ok o => cases o <;> simp [hao]

/-- A scan stuck in `initializing` since time 0, with no queue document. -/
def staleScan : ScanDoc :=
  { id := 0
    creationTime := 0
    status := ScanStatus.initializing
    options := { rssCount := 1, daysBack := none, parallelism := none }
    totalArticles := none
    processedArticles := none
    error := none
    completedAt := none }

/-- C9 counterexample: six minutes in, the watchdog does fail the stalled
queueless scan, but the error string it writes is
`"Scan timed out during initialization"` — not the claimed
`"timed out during initialization"` — so the claim as stated fails at
this input. -/
theorem watchdog_error_string_refuted :
    (checkStalledScans 360000 "now"
        { scans := [staleScan], queues := [], tasks := [] }).scans.map
        (fun s => s.error)
      = [some "Scan timed out during initialization"]
    ∧ (some "Scan timed out during initialization" : Option String)
        ≠ some "timed out during initialization" := by
  constructor
  · simp only [checkStalledScans]
    rw [show ([staleScan].filter fun s => s.status ≠ ScanStatus.completed)
        = [staleScan] from by decide]
    simp only [List.foldl_cons, List.foldl_nil, watchdogCheckScan]
    rw [show getQueueByScanId ([] : List ScanQueue) staleScan.id = none from rfl]
    rw [if_pos ⟨rfl, by norm_num [staleScan]⟩]
    simp [patchScan, staleScan]
  · decide

/-- C9 (amended): a watchdog pass over a non-completed scan with no work
queue that has been `initializing` for more than 5 minutes sets its status
to `completed` with error `"Scan timed out during initialization"` (and
schedules no worker); with no queue but inside the timeout, or not
`initializing`, the pass changes nothing; when a queue document exists
this rule never touches the scan documents at all. -/
theorem watchdog_init_timeout (now : Int) (nowIso : String)
    (st : WatchdogState) (scan : ScanDoc)
    (_hnc : scan.status ≠ ScanStatus.completed) :
    (getQueueByScanId st.queues scan.id = none →
        ((scan.status = ScanStatus.initializing ∧
            ((now : ℚ) - (scan.creationTime : ℚ)) / 1000 / 60 > 5 →
          (watchdogCheckScan now nowIso st scan).scans =
              patchScan st.scans scan.id (fun s =>
                { s with
                  status := ScanStatus.completed
                  error := some "Scan timed out during initialization"
                  completedAt := some nowIso })
          ∧ (watchdogCheckScan now nowIso st scan).queues = st.queues
          ∧ (watchdogCheckScan now nowIso st scan).tasks = st.tasks)
        ∧ (¬(scan.status = ScanStatus.initializing ∧
              ((now : ℚ) - (scan.creationTime : ℚ)) / 1000 / 60 > 5) →
            watchdogCheckScan now nowIso st scan = st)))
    ∧ (∀ q, getQueueByScanId st.queues scan.id = some q →
        (watchdogCheckScan now nowIso st scan).scans = st.scans) := by
  constructor
  · intro hq
    constructor
    · intro hcond
      simp only [watchdogCheckScan, hq]
      rw [if_pos hcond]
      exact ⟨rfl, rfl, rfl⟩
    · intro hcond
      simp only [watchdogCheckScan, hq]
      rw [if_neg hcond]
  · intro q hq
    simp only [watchdogCheckScan, hq]
    split <;> split <;> rfl

/-- Witness for the amended C9 theorem at the concrete stalled scan. -/
theorem watchdog_init_timeout_witness :
    (watchdogCheckScan 360000 "now"
        { scans := [staleScan], queues := [], tasks := [] } staleScan).scans =
      patchScan [staleScan] staleScan.id (fun s =>
        { s with
          status := ScanStatus.completed
          error := some "Scan timed out during initialization"
          completedAt := some "now" }) :=
  (((watchdog_init_timeout 360000 "now"
      { scans := [staleScan], queues := [], tasks := [] } staleScan
      (by decide)).1 rfl).1 ⟨rfl, by norm_num [staleScan]⟩).1

end Miranda
